import Mathlib

/-!
Shallow embedding of the core of `danbooru_utility.py`: the tag/rating/score
predicate (`tag_check`), the output resolver (`exists_or_link`), the image
normalizer wrapper (`resize_and_save_image`) together with the inline dispatch
step of `resize_and_save_images_mp`, and the face-detection-and-crop routine
(`detect_faces`), with proofs of the specification claims about them.

Modelling conventions:
* The file system is a list of directory entries (plain files and symbolic
  links); `os.path.exists` is membership by path, and a link's target is
  assumed to stay live for the duration of a run.
* Python `int(...)` on a float is truncation toward zero; the float
  arithmetic appearing in the crop geometry (`w * face_scale`, `/ 2`, `/ 4`)
  is exact for the values the program uses, so it is embedded as exact
  rational arithmetic followed by truncation (`truncQ`).
* Effects of the image library are abstracted into explicit parameters:
  whether the source image opens (`Option` of its height and width), whether
  the cascade resource file exists, the list of rectangles the detector
  returns, and boolean outcomes for the open/resize/save steps of the
  normalizer.  A save in the face-crop loop is modelled as succeeding (the
  surrounding `try/except` only drops the one face on failure, which no claim
  depends on).
* Python appends the same `info`/`example` dict object to its metadata list
  and mutates it in place; the observable value of that list at return time
  is therefore `count` copies of the final state of the dict, which is how
  the metadata result of `detect_faces` is materialised here.
-/

set_option linter.unusedVariables false
set_option maxRecDepth 8000

namespace DanbooruUtility

/-- Filter configuration of the predicate evaluator, mirroring the keyword
arguments of `tag_check`; the two entries of the `score_range` list are the
`scoreMin` and `scoreMax` fields. -/
structure FilterConfig where
  scoreMin : ℤ
  scoreMax : ℤ
  includedRatings : Finset String
  bannedTags : Finset String
  requiredTags : Finset String
  atleastTags : Finset String
  atleastNum : ℤ
deriving DecidableEq

/-- Embedding of `tag_check(tags, rating, score, ...)`.  Python set truthiness
(`if banned_tags & tags:`) is nonemptiness of the intersection; the remaining
guards are transcribed test for test, in source order. -/
def tag_check (tags : Finset String) (rating : String) (score : ℤ)
    (c : FilterConfig) : Bool :=
  if (c.bannedTags ∩ tags).Nonempty then false
  else if c.requiredTags ∩ tags ≠ c.requiredTags then false
  else if ((c.atleastTags ∩ tags).card : ℤ) < c.atleastNum then false
  else if rating ∉ c.includedRatings then false
  else if score < c.scoreMin then false
  else if c.scoreMax < score then false
  else true

/-- Directory entry of the modelled file system: a plain file, or a symbolic
link at `path` pointing to `target` (as created by `os.symlink`). -/
inductive FsEntry where
  | file (path : String)
  | link (path : String) (target : String)
deriving DecidableEq

/-- Name under which an entry appears in the file system. -/
def FsEntry.path : FsEntry → String
  | .file p => p
  | .link p _ => p

/-- File-system state: the entries currently in existence. -/
abbrev FS := List FsEntry

/-- Embedding of `os.path.exists`: some entry carries this path. -/
def pathExists (fs : FS) (p : String) : Bool :=
  fs.any fun e => FsEntry.path e = p

/-- Paths of the plain files (not symbolic links) of a file system; used to
state which calls write actual image files. -/
def FS.files : FS → List String
  | [] => []
  | .file p :: fs => p :: FS.files fs
  | .link _ _ :: fs => FS.files fs

/-- Embedding of `os.path.join` for the two-argument uses in the source. -/
def joinPath (dir file : String) : String := dir ++ "/" ++ file

/-- Embedding of `exists_or_link(write_path, link_path)`: skip if the output
already exists; otherwise symlink to the link directory copy if that exists;
otherwise report that the caller must produce the artifact.  Returns the
result together with the updated file system. -/
def exists_or_link (write_path link_path : String) (fs : FS) : Bool × FS :=
  if pathExists fs write_path then (true, fs)
  else if pathExists fs link_path then
    (true, FsEntry.link write_path link_path :: fs)
  else (false, fs)

/-- Metadata record of one image, with the fields the core reads, plus the
`filename` field the pipeline may add before emitting the record into the
aggregated index (`none` while the key is absent). -/
structure Record where
  id : String
  fileExt : String
  rating : String
  score : ℤ
  tags : List String
  filename : Option String := none
deriving DecidableEq

/-- Embedding of `resize_and_save_image(load_path, write_file, save_dir,
link_dir, img_size, overwrite)`.  `open_ok` is whether `Image.open` succeeds
and `resize_save_ok` whether the resize/convert/save block succeeds; both
`except` handlers in the source make the corresponding failure return `0`.
Returns the produced-artifact count and the updated file system. -/
def resize_and_save_image (fs : FS) (open_ok resize_save_ok : Bool)
    (write_file save_dir link_dir : String) (img_size : ℤ)
    (overwrite : Bool) : ℕ × FS :=
  let write_path := joinPath save_dir write_file
  let link_path := joinPath link_dir write_file
  let pre := if overwrite then (false, fs)
             else exists_or_link write_path link_path fs
  if pre.1 then (1, pre.2)
  else if open_ok = false then (0, pre.2)
  else if resize_save_ok = false then (0, pre.2)
  else (1, FsEntry.file write_path :: pre.2)

/-- Inline (non-face, non-zip) dispatch step of `resize_and_save_images_mp`
for one record: derive `write_file` from the record's id and extension, run
the image normalizer, and when it reports an artifact, count it and append
the record annotated with the output filename to the metadata accumulator.
`img_size` is threaded as in the source. -/
def processRecordInline (fs : FS) (open_ok resize_save_ok : Bool)
    (ex : Record) (save_dir link_dir : String) (img_size : ℤ)
    (overwrite : Bool) (num_processed : ℕ) (metadata : List Record) :
    ℕ × List Record × FS :=
  let write_file := ex.id ++ "." ++ ex.fileExt
  let r := resize_and_save_image fs open_ok resize_save_ok write_file
    save_dir link_dir img_size overwrite
  if 0 < r.1 then
    (num_processed + r.1,
     metadata ++ [{ ex with filename := some write_file }], r.2)
  else (num_processed + r.1, metadata, r.2)

/-- Detected face rectangle `(x, y, w, h)` as returned by
`cascade.detectMultiScale` (coordinates within the image, hence natural
numbers). -/
structure Rect where
  x : ℕ
  y : ℕ
  w : ℕ
  h : ℕ
deriving DecidableEq

/-- Python `int(...)`: truncation of a rational toward zero. -/
def truncQ (q : ℚ) : ℤ := if 0 ≤ q then ⌊q⌋ else ⌈q⌉

/-- Crop rectangle computed by `detect_faces` for one detected face:
`cropw = int(w * face_scale)`, `croph = int(h * face_scale)`,
`cropx = int(x - (cropw - w) / 2)`, `cropy = int(y - (croph - h) / 4)`,
with both origins clamped to be nonnegative afterwards. -/
structure CropGeom where
  cropx : ℤ
  cropy : ℤ
  cropw : ℤ
  croph : ℤ
deriving DecidableEq

/-- Embedding of the crop-geometry block of the face loop. -/
def cropGeom (face_scale : ℚ) (r : Rect) : CropGeom :=
  let cropw := truncQ ((r.w : ℚ) * face_scale)
  let croph := truncQ ((r.h : ℚ) * face_scale)
  let cropx := truncQ ((r.x : ℚ) - ((cropw : ℚ) - (r.w : ℚ)) / 2)
  let cropy := truncQ ((r.y : ℚ) - ((croph : ℚ) - (r.h : ℚ)) / 4)
  { cropx := if cropx < 0 then 0 else cropx
    cropy := if cropy < 0 then 0 else cropy
    cropw := cropw
    croph := croph }

/-- Length of the numpy slice `a[start : start + len]` over an axis of size
`dim` (for the nonnegative starts and lengths produced by the crop
computation): the slice is cut short at the far edge of the image. -/
def sliceLen (dim start len : ℕ) : ℕ := min (start + len) dim - start

/-- Shape `(rows, cols)` of `image[cropy : cropy + croph, cropx : cropx +
cropw]` for an image of height `imgH` and width `imgW`. -/
def cropSize (imgH imgW : ℕ) (face_scale : ℚ) (r : Rect) : ℕ × ℕ :=
  let g := cropGeom face_scale r
  (sliceLen imgH g.cropy.toNat g.croph.toNat,
   sliceLen imgW g.cropx.toNat g.cropw.toNat)

/-- Sequential face-crop filename `face{i}_{write_file}`. -/
def faceFile (i : ℕ) (write_file : String) : String :=
  "face" ++ toString i ++ "_" ++ write_file

/-- Output path of face slot `i` under the save directory. -/
def savePath (save_dir write_file : String) (i : ℕ) : String :=
  joinPath save_dir (faceFile i write_file)

/-- Output path of face slot `i` under the link directory. -/
def linkPath (link_dir write_file : String) (i : ℕ) : String :=
  joinPath link_dir (faceFile i write_file)

/-- State of the face-crop loop: the file system, the number of faces
produced so far, and the current value of the `filename` key of the single
shared `info` dict (`none` while the key has never been written). -/
structure LoopState where
  fs : FS
  count : ℕ
  lastFile : Option String
deriving DecidableEq

/-- Body of `for (x, y, w, h) in faces:` in `detect_faces`: skip the face if
either crop dimension is below `img_size`; otherwise save the normalized crop
under the next `face{n}_` filename, bump the count, and overwrite the shared
dict's `filename` key. -/
def detectStep (imgH imgW : ℕ) (img_size : ℤ) (face_scale : ℚ)
    (write_file save_dir : String) (st : LoopState) (r : Rect) : LoopState :=
  let s := cropSize imgH imgW face_scale r
  if (s.1 : ℤ) < img_size ∨ (s.2 : ℤ) < img_size then st
  else
    let face_write_file := faceFile st.count write_file
    { fs := FsEntry.file (joinPath save_dir face_write_file) :: st.fs
      count := st.count + 1
      lastFile := some face_write_file }

/-- Idempotence pre-check loop of `detect_faces` over the face-slot indices:
with overwrite disabled, each slot is probed through `exists_or_link`; a
satisfied slot bumps the count, and an unsatisfied slot met after at least
one satisfied one returns early.  The final boolean reports whether the early
`return` fired. -/
def precheckAux (overwrite : Bool) (write_file save_dir link_dir : String) :
    List ℕ → ℕ → FS → ℕ × FS × Bool
  | [], n, fs => (n, fs, false)
  | i :: rest, n, fs =>
    if overwrite then precheckAux overwrite write_file save_dir link_dir rest n fs
    else
      let res := exists_or_link (savePath save_dir write_file i)
        (linkPath link_dir write_file i) fs
      if res.1 then
        precheckAux overwrite write_file save_dir link_dir rest (n + 1) res.2
      else if 0 < n then (n, res.2, true)
      else precheckAux overwrite write_file save_dir link_dir rest n res.2

/-- Cascade resource filename used by `detect_faces` (the directory prefix of
the script location is abstracted away). -/
def cascade_file_name : String := "lbpcascade_animeface.xml"

/-- Embedding of `detect_faces(load_path, write_file, save_dir, link_dir,
img_size, face_scale, overwrite, info)`.  Environment parameters:
`cascade_file_exists` is `os.path.isfile(cascade_file)`, `image` is the
loaded source image's `(height, width)` or `none` when `Image.open` fails,
and `faces` is the rectangle list the detector returns.  A raised
`RuntimeError` is `Except.error`; normal returns carry the produced count,
the observable metadata list, and the updated file system. -/
def detect_faces (fs : FS) (write_file save_dir link_dir : String)
    (img_size : ℤ) (face_scale : ℚ) (overwrite : Bool) (info : Record)
    (cascade_file_exists : Bool) (image : Option (ℕ × ℕ))
    (faces : List Rect) : Except String (ℕ × List Record × FS) :=
  match precheckAux overwrite write_file save_dir link_dir (List.range 20) 0 fs with
  | (num_processed, fs1, true) => .ok (num_processed, [], fs1)
  | (_, fs1, false) =>
    if cascade_file_exists = false then
      .error (cascade_file_name ++ ": not found")
    else
      match image with
      | none => .ok (0, [], fs1)
      | some (imgH, imgW) =>
        let st := faces.foldl
          (detectStep imgH imgW img_size face_scale write_file save_dir)
          { fs := fs1, count := 0, lastFile := none }
        match st.lastFile with
        | none => .ok (st.count, [], st.fs)
        | some f =>
          .ok (st.count, List.replicate st.count { info with filename := some f },
               st.fs)

/-- Sample record used by concrete witnesses and counterexamples. -/
def sampleRecord : Record :=
  { id := "17", fileExt := "png", rating := "s", score := 3, tags := ["1girl"] }

/-- Sample record for the skip-path witness. -/
def skipRecord : Record :=
  { id := "7", fileExt := "png", rating := "s", score := 0, tags := [] }

/-- File system holding all 20 face-slot outputs of one image, used by the
full-pre-check witness. -/
def fs20 : FS := (List.range 20).map fun k => FsEntry.file (savePath "out" "f" k)

/-! ### Helper lemmas -/

/-- Characterisation of `tag_check`: the conjunction of the five filter
conditions, with the score bounds inclusive on both ends. -/
theorem tag_check_eq_true_iff (tags : Finset String) (rating : String) (score : ℤ)
    (c : FilterConfig) :
    tag_check tags rating score c = true ↔
      (c.bannedTags ∩ tags = ∅ ∧ c.requiredTags ⊆ tags ∧
       c.atleastNum ≤ ((c.atleastTags ∩ tags).card : ℤ) ∧
       rating ∈ c.includedRatings ∧ c.scoreMin ≤ score ∧ score ≤ c.scoreMax) := by
  unfold tag_check
  by_cases h1 : (c.bannedTags ∩ tags).Nonempty
  · rw [if_pos h1]
    refine iff_of_false (by simp) ?_
    rintro ⟨he, -⟩
    rw [he] at h1
    exact absurd h1 Finset.not_nonempty_empty
  · rw [if_neg h1]
    by_cases h2 : c.requiredTags ∩ tags ≠ c.requiredTags
    · rw [if_pos h2]
      refine iff_of_false (by simp) ?_
      rintro ⟨-, hs, -⟩
      exact h2 (Finset.inter_eq_left.mpr hs)
    · rw [if_neg h2]
      by_cases h3 : ((c.atleastTags ∩ tags).card : ℤ) < c.atleastNum
      · rw [if_pos h3]
        refine iff_of_false (by simp) ?_
        rintro ⟨-, -, hle, -⟩
        omega
      · rw [if_neg h3]
        by_cases h4 : rating ∉ c.includedRatings
        · rw [if_pos h4]
          refine iff_of_false (by simp) ?_
          rintro ⟨-, -, -, hr, -⟩
          exact h4 hr
        · rw [if_neg h4]
          by_cases h5 : score < c.scoreMin
          · rw [if_pos h5]
            refine iff_of_false (by simp) ?_
            rintro ⟨-, -, -, -, hmin, -⟩
            omega
          · rw [if_neg h5]
            by_cases h6 : c.scoreMax < score
            · rw [if_pos h6]
              refine iff_of_false (by simp) ?_
              rintro ⟨-, -, -, -, -, hmax⟩
              omega
            · rw [if_neg h6]
              exact iff_of_true rfl
                ⟨Finset.not_nonempty_iff_eq_empty.mp h1,
                 Finset.inter_eq_left.mp (not_not.mp h2), le_of_not_lt h3,
                 not_not.mp h4, le_of_not_lt h5, le_of_not_lt h6⟩

/-- Symbolic links never enter the plain-file projection of the file system. -/
theorem files_exists_or_link (wp lp : String) (fs : FS) :
    FS.files (exists_or_link wp lp fs).2 = FS.files fs := by
  unfold exists_or_link
  split_ifs
  all_goals rfl

/-- When the output resolver reports no work was skippable, it has created
nothing. -/
theorem exists_or_link_false_snd (wp lp : String) (fs : FS)
    (h : (exists_or_link wp lp fs).1 = false) :
    (exists_or_link wp lp fs).2 = fs := by
  unfold exists_or_link at h ⊢
  split_ifs at h ⊢ <;> simp_all

/-- When either probed path exists, the output resolver reports the slot as
satisfied. -/
theorem exists_or_link_fst_true (wp lp : String) (fs : FS)
    (h : pathExists fs wp = true ∨ pathExists fs lp = true) :
    (exists_or_link wp lp fs).1 = true := by
  unfold exists_or_link
  rcases h with h | h
  · simp [h]
  · by_cases hw : pathExists fs wp <;> simp [hw, h]

/-- Truncation toward zero is the identity on natural numbers. -/
theorem truncQ_natCast (n : ℕ) : truncQ (n : ℚ) = n := by
  simp [truncQ, Nat.cast_nonneg, Int.floor_natCast]

/-- Clamping at zero written as a maximum. -/
theorem ite_lt_zero_eq_max (c : ℤ) : (if c < 0 then 0 else c) = max 0 c := by
  rcases le_or_lt 0 c with h | h
  · rw [if_neg (not_lt.mpr h), max_eq_right h]
  · rw [if_pos h, max_eq_left (le_of_lt h)]

/-- With `face_scale = 1` the crop rectangle is the detected rectangle. -/
theorem cropGeom_one (r : Rect) :
    cropGeom 1 r = ⟨(r.x : ℤ), (r.y : ℤ), (r.w : ℤ), (r.h : ℤ)⟩ := by
  simp only [cropGeom, mul_one, truncQ_natCast, Int.cast_natCast, sub_self,
    zero_div, sub_zero]
  rw [if_neg (not_lt.mpr (Int.natCast_nonneg r.x)),
    if_neg (not_lt.mpr (Int.natCast_nonneg r.y))]

/-- Crop shape with `face_scale = 1`: the detected rectangle, cut short only
at the far edges of the image. -/
theorem cropSize_one (imgH imgW : ℕ) (r : Rect) :
    cropSize imgH imgW 1 r
      = (min (r.y + r.h) imgH - r.y, min (r.x + r.w) imgW - r.x) := by
  simp [cropSize, cropGeom_one, sliceLen, Int.toNat_natCast]

/-- Membership of a path in a grown file system. -/
theorem pathExists_cons (e : FsEntry) (fs : FS) (p : String) :
    pathExists (e :: fs) p = true ↔
      (FsEntry.path e = p ∨ pathExists fs p = true) := by
  simp [pathExists, List.any_cons]

/-- With overwrite enabled the pre-check loop probes nothing and changes
nothing. -/
theorem precheckAux_overwrite (w s ld : String) (l : List ℕ) (n : ℕ) (fs : FS) :
    precheckAux true w s ld l n fs = (n, fs, false) := by
  induction l with
  | nil => rfl
  | cons i t ih => simp [precheckAux, ih]

/-- Probes of slots with neither path present fall through without counting
and without touching the file system, as long as nothing was counted yet. -/
theorem precheckAux_skip_absent (w s ld : String) (l rest : List ℕ) (fs : FS) :
    (∀ k ∈ l, pathExists fs (savePath s w k) = false ∧
        pathExists fs (linkPath ld w k) = false) →
    precheckAux false w s ld (l ++ rest) 0 fs
      = precheckAux false w s ld rest 0 fs := by
  induction l with
  | nil =>
    intro h
    simp
  | cons i t ih =>
    intro h
    obtain ⟨h1, h2⟩ := h i (List.mem_cons_self i t)
    have heol : exists_or_link (savePath s w i) (linkPath ld w i) fs = (false, fs) := by
      simp [exists_or_link, h1, h2]
    have hrec := ih fun k hk => h k (List.mem_cons_of_mem i hk)
    simp [precheckAux, heol, hrec]

/-- Probes of slots whose save-directory output is already present count
them and leave the file system unchanged. -/
theorem precheckAux_count_present (w s ld : String) (l rest : List ℕ) (fs : FS) :
    ∀ n : ℕ, (∀ k ∈ l, pathExists fs (savePath s w k) = true) →
    precheckAux false w s ld (l ++ rest) n fs
      = precheckAux false w s ld rest (n + l.length) fs := by
  induction l with
  | nil =>
    intro n h
    simp
  | cons i t ih =>
    intro n h
    have heol : exists_or_link (savePath s w i) (linkPath ld w i) fs = (true, fs) := by
      simp [exists_or_link, h i (List.mem_cons_self i t)]
    have hrec := ih (n + 1) fun k hk => h k (List.mem_cons_of_mem i hk)
    have harith : n + (i :: t).length = (n + 1) + t.length := by
      simp only [List.length_cons]
      omega
    rw [harith, ← hrec]
    simp [precheckAux, heol]

/-- Probes over a run of satisfied slots: every probe reports true (directly
or by creating a symbolic link at that slot's save path), the count advances
by the length of the run, and every path existing afterwards either existed
before the run or is a save path of a slot of the run. -/
theorem precheckAux_count_satisfied (w s ld : String) (P : String → Prop)
    (l rest : List ℕ) (fs : FS) :
    ∀ (n : ℕ) (fsC : FS),
      (∀ k ∈ l, pathExists fs (savePath s w k) = true ∨
        pathExists fs (linkPath ld w k) = true) →
      (∀ p, pathExists fs p = true → pathExists fsC p = true) →
      (∀ p, pathExists fsC p = true → P p) →
      (∀ k ∈ l, P (savePath s w k)) →
      ∃ fsD, precheckAux false w s ld (l ++ rest) n fsC
          = precheckAux false w s ld rest (n + l.length) fsD
        ∧ (∀ p, pathExists fs p = true → pathExists fsD p = true)
        ∧ (∀ p, pathExists fsD p = true → P p) := by
  induction l with
  | nil =>
    intro n fsC hsat hup hP hPl
    exact ⟨fsC, by simp, hup, hP⟩
  | cons i t ih =>
    intro n fsC hsat hup hP hPl
    have harith : n + (i :: t).length = (n + 1) + t.length := by
      simp only [List.length_cons]
      omega
    by_cases hwp : pathExists fsC (savePath s w i) = true
    · have heol : exists_or_link (savePath s w i) (linkPath ld w i) fsC
          = (true, fsC) := by
        simp [exists_or_link, hwp]
      obtain ⟨fsD, heq, hupD, hPD⟩ := ih (n + 1) fsC
        (fun k hk => hsat k (List.mem_cons_of_mem i hk)) hup hP
        (fun k hk => hPl k (List.mem_cons_of_mem i hk))
      refine ⟨fsD, ?_, hupD, hPD⟩
      rw [harith, ← heq]
      simp [precheckAux, heol]
    · have hwp' : pathExists fsC (savePath s w i) = false := by
        cases h : pathExists fsC (savePath s w i)
        · rfl
        · exact absurd h hwp
      have hlp : pathExists fsC (linkPath ld w i) = true := by
        rcases hsat i (List.mem_cons_self i t) with hc | hc
        · rw [hup _ hc] at hwp'
          exact absurd hwp' (by simp)
        · exact hup _ hc
      have heol : exists_or_link (savePath s w i) (linkPath ld w i) fsC
          = (true, FsEntry.link (savePath s w i) (linkPath ld w i) :: fsC) := by
        simp [exists_or_link, hwp', hlp]
      have hup1 : ∀ p, pathExists fs p = true →
          pathExists (FsEntry.link (savePath s w i) (linkPath ld w i) :: fsC) p
            = true := by
        intro p hp
        exact (pathExists_cons _ _ _).mpr (Or.inr (hup p hp))
      have hP1 : ∀ p,
          pathExists (FsEntry.link (savePath s w i) (linkPath ld w i) :: fsC) p
            = true → P p := by
        intro p hp
        rcases (pathExists_cons _ _ _).mp hp with he | hp2
        · rw [← he]
          exact hPl i (List.mem_cons_self i t)
        · exact hP p hp2
      obtain ⟨fsD, heq, hupD, hPD⟩ := ih (n + 1) _
        (fun k hk => hsat k (List.mem_cons_of_mem i hk)) hup1 hP1
        (fun k hk => hPl k (List.mem_cons_of_mem i hk))
      refine ⟨fsD, ?_, hupD, hPD⟩
      rw [harith, ← heq]
      simp [precheckAux, heol]

/-! ### Claim theorems -/

/-- C1: `tag_check` returns true iff all five filter conditions hold
simultaneously, and the rules are decided short-circuit in source order: the
first failing rule forces the result false regardless of the later rules. -/
theorem tag_check_correct (tags : Finset String) (rating : String) (score : ℤ)
    (c : FilterConfig) :
    (tag_check tags rating score c = true ↔
      (c.bannedTags ∩ tags = ∅ ∧ c.requiredTags ⊆ tags ∧
       c.atleastNum ≤ ((c.atleastTags ∩ tags).card : ℤ) ∧
       rating ∈ c.includedRatings ∧ c.scoreMin ≤ score ∧ score ≤ c.scoreMax))
    ∧ ((c.bannedTags ∩ tags).Nonempty → tag_check tags rating score c = false)
    ∧ (c.bannedTags ∩ tags = ∅ → ¬ c.requiredTags ⊆ tags →
        tag_check tags rating score c = false)
    ∧ (c.bannedTags ∩ tags = ∅ → c.requiredTags ⊆ tags →
        ((c.atleastTags ∩ tags).card : ℤ) < c.atleastNum →
        tag_check tags rating score c = false)
    ∧ (c.bannedTags ∩ tags = ∅ → c.requiredTags ⊆ tags →
        c.atleastNum ≤ ((c.atleastTags ∩ tags).card : ℤ) →
        rating ∉ c.includedRatings → tag_check tags rating score c = false)
    ∧ (c.bannedTags ∩ tags = ∅ → c.requiredTags ⊆ tags →
        c.atleastNum ≤ ((c.atleastTags ∩ tags).card : ℤ) →
        rating ∈ c.includedRatings → (score < c.scoreMin ∨ c.scoreMax < score) →
        tag_check tags rating score c = false) := by
  have H := tag_check_eq_true_iff tags rating score c
  refine ⟨H, ?_, ?_, ?_, ?_, ?_⟩
  · intro hne
    cases htc : tag_check tags rating score c
    · rfl
    · rw [(H.mp htc).1] at hne
      exact absurd hne Finset.not_nonempty_empty
  · intro _ hns
    cases htc : tag_check tags rating score c
    · rfl
    · exact absurd (H.mp htc).2.1 hns
  · intro _ _ hlt
    cases htc : tag_check tags rating score c
    · rfl
    · have := (H.mp htc).2.2.1
      omega
  · intro _ _ _ hnr
    cases htc : tag_check tags rating score c
    · rfl
    · exact absurd (H.mp htc).2.2.2.1 hnr
  · intro _ _ _ _ hs
    cases htc : tag_check tags rating score c
    · rfl
    · have h5 := (H.mp htc).2.2.2.2.1
      have h6 := (H.mp htc).2.2.2.2.2
      omega

/-- Witness for C1: a record passing all five rules evaluates to true. -/
theorem tag_check_correct_witness :
    tag_check {"a"} "s" 5
      { scoreMin := 0, scoreMax := 10, includedRatings := {"s"},
        bannedTags := ∅, requiredTags := ∅, atleastTags := ∅, atleastNum := 0 }
      = true :=
  (tag_check_correct {"a"} "s" 5
      { scoreMin := 0, scoreMax := 10, includedRatings := {"s"},
        bannedTags := ∅, requiredTags := ∅, atleastTags := ∅, atleastNum := 0 }).1.mpr
    ⟨by decide, by decide, by decide, by decide, by decide, by decide⟩

/-- C2 counterexample: with the allowed-ratings set empty and every other
rule trivially passing (empty banned/required/at-least sets, threshold 0,
score inside the range), `tag_check` rejects the record, so an empty
allowed-ratings set is not a no-op pass-through. -/
theorem tag_check_empty_ratings_rejects :
    tag_check {"1girl"} "s" 0
      { scoreMin := -999999999, scoreMax := 999999999, includedRatings := ∅,
        bannedTags := ∅, requiredTags := ∅, atleastTags := ∅, atleastNum := 0 }
      = false := by
  rfl

/-- C2 amended: with empty banned, required and at-least sets, threshold 0,
and the score inside the range, `tag_check` is decided solely by the rating
rule — the four absent constraints are no-op pass-throughs, while an empty
allowed-ratings set rejects every record. -/
theorem tag_check_noop_passthrough (tags : Finset String) (rating : String)
    (score : ℤ) (ratings : Finset String) (mi ma : ℤ)
    (hmin : mi ≤ score) (hmax : score ≤ ma) :
    tag_check tags rating score
      { scoreMin := mi, scoreMax := ma, includedRatings := ratings,
        bannedTags := ∅, requiredTags := ∅, atleastTags := ∅, atleastNum := 0 }
      = decide (rating ∈ ratings) := by
  by_cases hr : rating ∈ ratings
  · rw [decide_eq_true hr]
    exact (tag_check_eq_true_iff tags rating score _).mpr
      ⟨Finset.empty_inter tags, Finset.empty_subset tags,
       by positivity, hr, hmin, hmax⟩
  · rw [decide_eq_false hr]
    cases htc : tag_check tags rating score
        { scoreMin := mi, scoreMax := ma, includedRatings := ratings,
          bannedTags := ∅, requiredTags := ∅, atleastTags := ∅, atleastNum := 0 }
    · rfl
    · exact absurd ((tag_check_eq_true_iff _ _ _ _).mp htc).2.2.2.1 hr

/-- Witness for the amended C2 at a concrete input. -/
theorem tag_check_noop_passthrough_witness :
    tag_check {"a"} "q" 0
      { scoreMin := -5, scoreMax := 5, includedRatings := {"s", "q"},
        bannedTags := ∅, requiredTags := ∅, atleastTags := ∅, atleastNum := 0 }
      = decide ("q" ∈ ({"s", "q"} : Finset String)) :=
  tag_check_noop_passthrough {"a"} "q" 0 {"s", "q"} (-5) 5 (by norm_num) (by norm_num)

/-- C5: the output resolver returns true leaving the file system unchanged
when the output path exists; otherwise, when the link path exists, it creates
one symbolic link at the output path pointing to the link path and returns
true; when neither exists it returns false and creates nothing. -/
theorem exists_or_link_spec (write_path link_path : String) (fs : FS) :
    (pathExists fs write_path = true →
      exists_or_link write_path link_path fs = (true, fs)) ∧
    (pathExists fs write_path = false → pathExists fs link_path = true →
      exists_or_link write_path link_path fs
        = (true, FsEntry.link write_path link_path :: fs)) ∧
    (pathExists fs write_path = false → pathExists fs link_path = false →
      exists_or_link write_path link_path fs = (false, fs)) := by
  refine ⟨?_, ?_, ?_⟩
  · intro h
    simp [exists_or_link, h]
  · intro h1 h2
    simp [exists_or_link, h1, h2]
  · intro h1 h2
    simp [exists_or_link, h1, h2]

/-- Witness for C5: with neither path existing the resolver returns false
and creates nothing. -/
theorem exists_or_link_spec_witness :
    exists_or_link "out/a" "lnk/a" [] = (false, []) :=
  (exists_or_link_spec "out/a" "lnk/a" []).2.2 rfl rfl

/-- C6 counterexample: with overwrite disabled and the output path already
existing, `resize_and_save_image` returns 1 while writing no file at all, so
a call returning 1 does not always write exactly one file. -/
theorem resize_skip_writes_nothing :
    (resize_and_save_image [FsEntry.file "out/1.png"] true true "1.png" "out" "lnk"
        256 false).1 = 1
    ∧ (resize_and_save_image [FsEntry.file "out/1.png"] true true "1.png" "out" "lnk"
        256 false).2 = [FsEntry.file "out/1.png"] := by
  constructor <;> rfl

/-- C6 amended: `resize_and_save_image` never raises (it is a total
function); it returns 0 or 1; a failure (return 0) leaves the file system
untouched; and a return of 1 either wrote exactly one image file (the actual
resize-and-save path) or wrote no image file at all (the skip path taken when
overwrite is disabled and the output exists or is satisfiable via the link
directory, which adds at most a symbolic link). -/
theorem resize_and_save_image_spec (fs : FS) (open_ok resize_save_ok : Bool)
    (write_file save_dir link_dir : String) (img_size : ℤ) (overwrite : Bool) :
    ((resize_and_save_image fs open_ok resize_save_ok write_file save_dir link_dir
        img_size overwrite).1 = 0 ∨
     (resize_and_save_image fs open_ok resize_save_ok write_file save_dir link_dir
        img_size overwrite).1 = 1) ∧
    ((resize_and_save_image fs open_ok resize_save_ok write_file save_dir link_dir
        img_size overwrite).1 = 0 →
      (resize_and_save_image fs open_ok resize_save_ok write_file save_dir link_dir
        img_size overwrite).2 = fs) ∧
    ((resize_and_save_image fs open_ok resize_save_ok write_file save_dir link_dir
        img_size overwrite).1 = 1 →
      FS.files (resize_and_save_image fs open_ok resize_save_ok write_file save_dir
        link_dir img_size overwrite).2 = FS.files fs ∨
      (resize_and_save_image fs open_ok resize_save_ok write_file save_dir link_dir
        img_size overwrite).2
        = FsEntry.file (joinPath save_dir write_file) :: fs) := by
  cases overwrite
  case false =>
    rcases heol : exists_or_link (joinPath save_dir write_file)
        (joinPath link_dir write_file) fs with ⟨b, fs2⟩
    cases b
    case false =>
      have hfs2 : fs2 = fs := by
        have h := exists_or_link_false_snd (joinPath save_dir write_file)
          (joinPath link_dir write_file) fs (by rw [heol])
        rw [heol] at h
        exact h
      subst hfs2
      cases open_ok <;> cases resize_save_ok <;>
        simp [resize_and_save_image, heol]
    case true =>
      have hfiles : FS.files fs2 = FS.files fs := by
        have h := files_exists_or_link (joinPath save_dir write_file)
          (joinPath link_dir write_file) fs
        rw [heol] at h
        exact h
      simp [resize_and_save_image, heol, hfiles]
  case true =>
    cases open_ok <;> cases resize_save_ok <;> simp [resize_and_save_image]

/-- Witness for the amended C6 at a concrete input. -/
theorem resize_and_save_image_spec_witness :
    (resize_and_save_image [] false true "1.png" "out" "lnk" 256 false).1 = 0 ∨
    (resize_and_save_image [] false true "1.png" "out" "lnk" 256 false).1 = 1 :=
  (resize_and_save_image_spec [] false true "1.png" "out" "lnk" 256 false).1

/-- C7: the crop geometry is `cropw = int(w * face_scale)`,
`croph = int(h * face_scale)`, `cropx = int(x - (cropw - w) / 2)` and
`cropy = int(y - (croph - h) / 4)` with both origins clamped only at zero;
with `face_scale = 1` the crop rectangle is the detected rectangle, so for an
in-bounds detection the crop's shape is exactly `(h, w)`; and a face whose
crop is smaller than `img_size` in either dimension leaves the loop state
unchanged — it is never saved. -/
theorem face_crop_geometry (r : Rect) (face_scale : ℚ) (imgH imgW : ℕ)
    (img_size : ℤ) (write_file save_dir : String) :
    ((cropGeom face_scale r).cropw = truncQ ((r.w : ℚ) * face_scale) ∧
     (cropGeom face_scale r).croph = truncQ ((r.h : ℚ) * face_scale)) ∧
    ((cropGeom face_scale r).cropx
        = max 0 (truncQ ((r.x : ℚ)
            - ((truncQ ((r.w : ℚ) * face_scale) : ℚ) - (r.w : ℚ)) / 2)) ∧
     (cropGeom face_scale r).cropy
        = max 0 (truncQ ((r.y : ℚ)
            - ((truncQ ((r.h : ℚ) * face_scale) : ℚ) - (r.h : ℚ)) / 4))) ∧
    (cropGeom 1 r = ⟨(r.x : ℤ), (r.y : ℤ), (r.w : ℤ), (r.h : ℤ)⟩) ∧
    (r.x + r.w ≤ imgW → r.y + r.h ≤ imgH → cropSize imgH imgW 1 r = (r.h, r.w)) ∧
    (∀ st : LoopState,
      ((cropSize imgH imgW face_scale r).1 : ℤ) < img_size ∨
        ((cropSize imgH imgW face_scale r).2 : ℤ) < img_size →
      detectStep imgH imgW img_size face_scale write_file save_dir st r = st) := by
  refine ⟨⟨rfl, rfl⟩, ⟨?_, ?_⟩, cropGeom_one r, ?_, ?_⟩
  · simp only [cropGeom]
    rw [ite_lt_zero_eq_max]
  · simp only [cropGeom]
    rw [ite_lt_zero_eq_max]
  · intro hx hy
    rw [cropSize_one, Nat.min_eq_left hy, Nat.min_eq_left hx]
    simp [Prod.ext_iff]
  · intro st hlt
    simp only [detectStep]
    rw [if_pos hlt]

/-- Witness for C7: a 10 by 10 crop below the 256 target size is dropped. -/
theorem face_crop_geometry_witness :
    detectStep 100 100 256 1 "f" "out" { fs := [], count := 0, lastFile := none }
        ⟨0, 0, 10, 10⟩
      = { fs := [], count := 0, lastFile := none } :=
  (face_crop_geometry ⟨0, 0, 10, 10⟩ 1 100 100 256 "f" "out").2.2.2.2
    { fs := [], count := 0, lastFile := none }
    (Or.inl (by rw [cropSize_one]; norm_num))

/-- C10: with overwrite disabled and the output already existing or
satisfiable via the link directory, `resize_and_save_image` returns 1 for
every outcome of the open and resize/save steps (the source image is never
consulted), writes no new image file, and the inline dispatch step
nevertheless counts the record as produced and appends it, annotated with the
output filename, to the in-memory metadata list. -/
theorem skip_path_counts_and_annotates (fs : FS) (open_ok resize_save_ok : Bool)
    (ex : Record) (save_dir link_dir : String) (img_size : ℤ)
    (num_processed : ℕ) (metadata : List Record)
    (h : pathExists fs (joinPath save_dir (ex.id ++ "." ++ ex.fileExt)) = true ∨
         pathExists fs (joinPath link_dir (ex.id ++ "." ++ ex.fileExt)) = true) :
    resize_and_save_image fs open_ok resize_save_ok (ex.id ++ "." ++ ex.fileExt)
        save_dir link_dir img_size false
      = (1, (exists_or_link (joinPath save_dir (ex.id ++ "." ++ ex.fileExt))
              (joinPath link_dir (ex.id ++ "." ++ ex.fileExt)) fs).2) ∧
    FS.files (exists_or_link (joinPath save_dir (ex.id ++ "." ++ ex.fileExt))
        (joinPath link_dir (ex.id ++ "." ++ ex.fileExt)) fs).2 = FS.files fs ∧
    processRecordInline fs open_ok resize_save_ok ex save_dir link_dir img_size
        false num_processed metadata
      = (num_processed + 1,
         metadata ++ [{ ex with filename := some (ex.id ++ "." ++ ex.fileExt) }],
         (exists_or_link (joinPath save_dir (ex.id ++ "." ++ ex.fileExt))
            (joinPath link_dir (ex.id ++ "." ++ ex.fileExt)) fs).2) := by
  have hfst := exists_or_link_fst_true
    (joinPath save_dir (ex.id ++ "." ++ ex.fileExt))
    (joinPath link_dir (ex.id ++ "." ++ ex.fileExt)) fs h
  have h1 : resize_and_save_image fs open_ok resize_save_ok
      (ex.id ++ "." ++ ex.fileExt) save_dir link_dir img_size false
      = (1, (exists_or_link (joinPath save_dir (ex.id ++ "." ++ ex.fileExt))
              (joinPath link_dir (ex.id ++ "." ++ ex.fileExt)) fs).2) := by
    simp [resize_and_save_image, hfst]
  refine ⟨h1, files_exists_or_link _ _ fs, ?_⟩
  simp [processRecordInline, h1]

/-- Witness for C10 at a concrete input: the output exists, opening would
fail, and the record is still counted and annotated. -/
theorem skip_path_counts_and_annotates_witness :
    processRecordInline [FsEntry.file "out/7.png"] false false skipRecord "out" "lnk"
        256 false 0 []
      = (0 + 1,
         [] ++ [{ skipRecord with
                    filename := some (skipRecord.id ++ "." ++ skipRecord.fileExt) }],
         (exists_or_link (joinPath "out" (skipRecord.id ++ "." ++ skipRecord.fileExt))
            (joinPath "lnk" (skipRecord.id ++ "." ++ skipRecord.fileExt))
            [FsEntry.file "out/7.png"]).2) :=
  (skip_path_counts_and_annotates [FsEntry.file "out/7.png"] false false skipRecord
      "out" "lnk" 256 0 [] (Or.inl (by decide))).2.2

/-- C3 (code bug): at a record producing two retained faces, the code
mutates the single shared record dict and appends it twice, so both
aggregated metadata entries carry the second output's filename
`face1_img.png`; no entry carries `face0_img.png` even though that file is
written. -/
theorem detect_faces_metadata_aliasing :
    detect_faces [] "img.png" "out" "lnk" 256 1 true sampleRecord true
        (some (500, 500)) [⟨0, 0, 300, 300⟩, ⟨50, 50, 300, 300⟩]
      = .ok (2,
          [{ sampleRecord with filename := some "face1_img.png" },
           { sampleRecord with filename := some "face1_img.png" }],
          [FsEntry.file "out/face1_img.png", FsEntry.file "out/face0_img.png"]) := by
  have hpre := precheckAux_overwrite "img.png" "out" "lnk" (List.range 20) 0 ([] : FS)
  have h1 : cropSize 500 500 1 ⟨0, 0, 300, 300⟩ = (300, 300) := by
    rw [cropSize_one]
    decide
  have h2 : cropSize 500 500 1 ⟨50, 50, 300, 300⟩ = (300, 300) := by
    rw [cropSize_one]
    decide
  simp only [detect_faces, hpre, List.foldl_cons, List.foldl_nil, detectStep, h1, h2]
  norm_num
  exact ⟨rfl, rfl, rfl⟩

/-- C4: with overwrite disabled, when the slots below `a` are wholly absent,
the slots from `a` up to the gap `j < 20` are satisfied, and slot `j` is
satisfiable neither directly nor via the link directory, `detect_faces`
short-circuits out of the pre-check loop: it returns the accumulated count
`j - a` of satisfied slots with an empty metadata list, for every detector
environment — no detection runs.  The distinctness hypothesis states that the
face-slot paths below the gap do not collide with the gap slot's paths. -/
theorem detect_faces_precheck_short_circuit
    (fs : FS) (write_file save_dir link_dir : String) (img_size : ℤ)
    (face_scale : ℚ) (info : Record) (ce : Bool) (img : Option (ℕ × ℕ))
    (faces : List Rect) (a j : ℕ) (haj : a < j) (hj : j < 20)
    (hfalse : ∀ k, k < a →
        pathExists fs (savePath save_dir write_file k) = false ∧
        pathExists fs (linkPath link_dir write_file k) = false)
    (htrue : ∀ k, a ≤ k → k < j →
        pathExists fs (savePath save_dir write_file k) = true ∨
        pathExists fs (linkPath link_dir write_file k) = true)
    (hgap : pathExists fs (savePath save_dir write_file j) = false ∧
        pathExists fs (linkPath link_dir write_file j) = false)
    (hdistinct : ∀ k, k < j →
        savePath save_dir write_file k ≠ savePath save_dir write_file j ∧
        savePath save_dir write_file k ≠ linkPath link_dir write_file j) :
    detect_faces fs write_file save_dir link_dir img_size face_scale false info
        ce img faces
      = .ok (j - a, [],
          (precheckAux false write_file save_dir link_dir (List.range 20) 0 fs).2.1) := by
  have hsplit : List.range 20
      = List.range' 0 a ++ (List.range' a (j - a) ++ List.range' j (20 - j)) := by
    rw [List.range_eq_range']
    have hinner : List.range' a (j - a) ++ List.range' j (20 - j)
        = List.range' a ((20 - j) + (j - a)) := by
      have h := List.range'_append a (j - a) (20 - j) 1
      have hja : a + 1 * (j - a) = j := by omega
      rw [hja] at h
      simpa using h
    rw [hinner]
    have h := List.range'_append 0 a ((20 - j) + (j - a)) 1
    simp only [one_mul, Nat.zero_add] at h
    rw [h]
    congr 1
    omega
  have h1 : precheckAux false write_file save_dir link_dir (List.range 20) 0 fs
      = precheckAux false write_file save_dir link_dir
          (List.range' a (j - a) ++ List.range' j (20 - j)) 0 fs := by
    rw [hsplit]
    exact precheckAux_skip_absent write_file save_dir link_dir (List.range' 0 a) _ fs
      fun k hk => hfalse k (by
        have := List.mem_range'_1.mp hk
        omega)
  obtain ⟨fsD, h2, hupD, hPD⟩ := precheckAux_count_satisfied write_file save_dir link_dir
    (fun p => pathExists fs p = true ∨
      ∃ k, a ≤ k ∧ k < j ∧ p = savePath save_dir write_file k)
    (List.range' a (j - a)) (List.range' j (20 - j)) fs 0 fs
    (fun k hk => by
      have := List.mem_range'_1.mp hk
      exact htrue k this.1 (by omega))
    (fun p hp => hp) (fun p hp => Or.inl hp)
    (fun k hk => by
      have := List.mem_range'_1.mp hk
      exact Or.inr ⟨k, this.1, by omega, rfl⟩)
  have hgap1 : pathExists fsD (savePath save_dir write_file j) = false := by
    cases hD : pathExists fsD (savePath save_dir write_file j)
    · rfl
    · rcases hPD _ hD with hc | ⟨k, hak, hkj, he⟩
      · rw [hc] at hgap
        exact absurd hgap.1 (by simp)
      · exact absurd he.symm (hdistinct k hkj).1
  have hgap2 : pathExists fsD (linkPath link_dir write_file j) = false := by
    cases hD : pathExists fsD (linkPath link_dir write_file j)
    · rfl
    · rcases hPD _ hD with hc | ⟨k, hak, hkj, he⟩
      · rw [hc] at hgap
        exact absurd hgap.2 (by simp)
      · exact absurd he.symm (hdistinct k hkj).2
  have h3 : precheckAux false write_file save_dir link_dir
      (List.range' j (20 - j)) (0 + (j - a)) fsD = (j - a, fsD, true) := by
    have hm : 20 - j = (20 - j - 1) + 1 := by omega
    rw [hm, List.range'_succ]
    have heol : exists_or_link (savePath save_dir write_file j)
        (linkPath link_dir write_file j) fsD = (false, fsD) := by
      simp [exists_or_link, hgap1, hgap2]
    have hpos : 0 < 0 + (j - a) := by omega
    simp [precheckAux, heol, hpos]
    intro hcon
    exact absurd hcon (by omega)
  have hfull : precheckAux false write_file save_dir link_dir (List.range 20) 0 fs
      = (j - a, fsD, true) := by
    rw [h1]
    rw [List.length_range'] at h2
    rw [h2, h3]
  simp only [detect_faces, hfull]

/-- Witness for C4: slot 0 satisfied, slot 1 absent — the call returns count
1 with no metadata, with no detector environment consulted. -/
theorem detect_faces_precheck_short_circuit_witness :
    detect_faces [FsEntry.file "out/face0_f"] "f" "out" "lnk" 256 1 false
        sampleRecord true none []
      = .ok (1 - 0, [],
          (precheckAux false "f" "out" "lnk" (List.range 20) 0
            [FsEntry.file "out/face0_f"]).2.1) :=
  detect_faces_precheck_short_circuit [FsEntry.file "out/face0_f"] "f" "out" "lnk"
    256 1 sampleRecord true none [] 0 1 (by omega) (by omega)
    (fun k hk => absurd hk (by omega))
    (fun k h0 h1 => Or.inl (by interval_cases k; decide))
    (by decide)
    (fun k hk => by interval_cases k; exact ⟨by decide, by decide⟩)

/-- C8: whenever the pre-check loop does not short-circuit, a missing
cascade resource file makes `detect_faces` raise (abort the invocation with
an error), for every image and detector outcome; whereas with the cascade
present an unreadable source image is caught and the invocation returns
`(0, [])` without raising. -/
theorem detect_faces_error_handling
    (fs : FS) (write_file save_dir link_dir : String) (img_size : ℤ)
    (face_scale : ℚ) (overwrite : Bool) (info : Record) (img : Option (ℕ × ℕ))
    (faces : List Rect)
    (hpre : (precheckAux overwrite write_file save_dir link_dir
        (List.range 20) 0 fs).2.2 = false) :
    detect_faces fs write_file save_dir link_dir img_size face_scale overwrite info
        false img faces
      = .error (cascade_file_name ++ ": not found")
    ∧ detect_faces fs write_file save_dir link_dir img_size face_scale overwrite info
        true none faces
      = .ok (0, [],
          (precheckAux overwrite write_file save_dir link_dir
            (List.range 20) 0 fs).2.1) := by
  rcases hpc : precheckAux overwrite write_file save_dir link_dir (List.range 20) 0 fs
    with ⟨n, fs1, b⟩
  rw [hpc] at hpre
  simp only at hpre
  subst hpre
  constructor
  · simp [detect_faces, hpc]
  · simp [detect_faces, hpc]

/-- Witness for C8 with overwrite enabled (so the pre-check is trivially not
short-circuiting). -/
theorem detect_faces_error_handling_witness :
    detect_faces [] "f" "out" "lnk" 256 1 true sampleRecord false none []
      = .error (cascade_file_name ++ ": not found")
    ∧ detect_faces [] "f" "out" "lnk" 256 1 true sampleRecord true none []
      = .ok (0, [], (precheckAux true "f" "out" "lnk" (List.range 20) 0 []).2.1) :=
  detect_faces_error_handling [] "f" "out" "lnk" 256 1 true sampleRecord none []
    (by rw [precheckAux_overwrite])

/-- C9: with overwrite disabled and all 20 face-slot outputs already present
in the save directory, `detect_faces` does not skip the image: it behaves
exactly as with overwrite enabled (the pre-check count is discarded and full
detection re-runs), and in particular when the detector finds no faces the
call returns count 0 — not the 20 satisfied slots. -/
theorem detect_faces_full_precheck_reprocesses
    (fs : FS) (write_file save_dir link_dir : String) (img_size : ℤ)
    (face_scale : ℚ) (info : Record) (ce : Bool) (img : Option (ℕ × ℕ))
    (faces : List Rect) (imgH imgW : ℕ)
    (hall : ∀ k, k < 20 → pathExists fs (savePath save_dir write_file k) = true) :
    detect_faces fs write_file save_dir link_dir img_size face_scale false info
        ce img faces
      = detect_faces fs write_file save_dir link_dir img_size face_scale true info
          ce img faces
    ∧ detect_faces fs write_file save_dir link_dir img_size face_scale false info
        true (some (imgH, imgW)) []
      = .ok (0, [], fs) := by
  have hpre : precheckAux false write_file save_dir link_dir (List.range 20) 0 fs
      = (20, fs, false) := by
    have h := precheckAux_count_present write_file save_dir link_dir
      (List.range 20) [] fs 0 fun k hk => hall k (List.mem_range.mp hk)
    rw [List.append_nil] at h
    simpa using h
  have hpre2 := precheckAux_overwrite write_file save_dir link_dir (List.range 20) 0 fs
  constructor
  · simp only [detect_faces, hpre, hpre2]
  · simp only [detect_faces, hpre, List.foldl_nil]
    rfl

/-- Witness for C9: with all 20 slots present, the overwrite-disabled call
equals the overwrite-enabled call, and an empty detection yields count 0. -/
theorem detect_faces_full_precheck_reprocesses_witness :
    detect_faces fs20 "f" "out" "lnk" 256 1 false sampleRecord true none []
      = detect_faces fs20 "f" "out" "lnk" 256 1 true sampleRecord true none []
    ∧ detect_faces fs20 "f" "out" "lnk" 256 1 false sampleRecord true
        (some (100, 100)) []
      = .ok (0, [], fs20) :=
  detect_faces_full_precheck_reprocesses fs20 "f" "out" "lnk" 256 1 sampleRecord
    true none [] 100 100 (by decide)

end DanbooruUtility
